import Mathlib

/-!
Verification model of `net/veth.go` (weave): veth pair creation and
attachment to a forwarding device, container attach/detach orchestration,
and IP-address reconciliation.

Kernel and netlink effects are shallowly embedded as explicit state
passing.  An interface is a named record holding its addresses (tagged
with their address family) and its administrative up flag.  External
netlink primitives are modelled with their documented kernel contracts:
`AddrList(link, FAMILY_V4)` returns only the IPv4 addresses,
`AddrAdd` fails when the exact (IP, prefix-length) pair is already
configured (EEXIST) and may otherwise fail per an injected environment,
`AddrDel` removes the exact (IP, prefix-length) pair and fails when it is
absent (EADDRNOTAVAIL), and `LinkDel` of an owned veth removes the pair
(both ends vanish together); the code ignores any `LinkDel` error, and the
model treats deletion of an owned link as succeeding.  Each run also
records the trace of kernel operations that were performed, so that
ordering and absence properties can be stated.
-/

set_option maxHeartbeats 1000000

namespace WeaveNet

/-- Address family of an IP address (netlink FAMILY_V4 / FAMILY_V6). -/
inductive Family
  | v4
  | v6
deriving DecidableEq, Repr

/-- An IP address: its family together with an abstract numeric value.
`net.IP.Equal` is modelled as equality of this record. -/
structure IP where
  fam : Family
  val : Nat
deriving DecidableEq, Repr

/-- A `net.IPNet`: an IP address plus a prefix length. -/
structure IPNet where
  ip : IP
  plen : Nat
deriving DecidableEq, Repr

/-- Route scope (netlink SCOPE_LINK etc.). -/
inductive Scope
  | link
  | host
  | global
deriving DecidableEq, Repr

/-- A route entry: destination prefix and scope. -/
structure Route where
  dest : IPNet
  scope : Scope
deriving DecidableEq, Repr

/-- The fixed multicast destination 224.0.0.0/4 used by AttachContainer
(224.0.0.0 as a 32-bit value is 3758096384). -/
def multicastNet : IPNet := ⟨⟨Family.v4, 3758096384⟩, 4⟩

/-- The link-scope multicast route installed by AttachContainer. -/
def multicastRoute : Route := ⟨multicastNet, Scope.link⟩

/-- A network interface inside the container namespace: name, configured
addresses, and administrative up flag. -/
structure Iface where
  name : String
  addrs : List IPNet
  up : Bool
deriving DecidableEq, Repr

/-- The kernel networking state visible inside the container namespace:
its interfaces and its route table. -/
structure World where
  ifaces : List Iface
  routes : List Route
deriving DecidableEq, Repr

/-- Model of `netlink.AddrList(link, netlink.FAMILY_V4)`: only the IPv4
addresses configured on the link are returned. -/
def addrListV4 (addrs : List IPNet) : List IPNet :=
  addrs.filter (fun a => a.ip.fam == Family.v4)

/-- Model of `contains` from veth.go: the candidate matches when some
listed address has the same IP value (`addr.IP.Equal(x.IPNet.IP)`); the
prefix length is ignored. -/
def contains (addrs : List IPNet) (addr : IPNet) : Bool :=
  addrs.any (fun x => addr.ip == x.ip)

/-- Events: the kernel operations a run performs, in order. -/
inductive AEvent
  | createVeth
  | addrAdd (a : IPNet)
  | addrDel (a : IPNet)
  | linkUp
  | arp (ip : IP)
  | addRoute
  | linkDel
deriving DecidableEq, Repr

/-- Error message used for `netlink.AddrAdd` rejecting an exact duplicate
(kernel EEXIST). -/
def msgAddrAddEexist : String := "failed to add IP address: file exists"

/-- Error message used for an environment-injected `netlink.AddrAdd`
failure. -/
def msgAddrAddFail : String := "failed to add IP address"

/-- Error message used for `netlink.AddrDel` of an address that is not
configured as an exact (IP, prefix-length) pair (kernel EADDRNOTAVAIL). -/
def msgAddrDelNotFound : String := "failed to remove IP address: cannot assign requested address"

/-- Error message of WithNetNSLink when the named interface is absent. -/
def msgIfaceNotFound : String := "interface not found"

/-- Error message for a failing `netlink.LinkSetUp` on the guest. -/
def msgLinkUpFail : String := "link up failed"

/-- Result of the address-addition loop of `AddAddresses`: the Go return
value (`nil` plus an error, or the list of added addresses), the link's
address list afterwards, and the kernel operations performed. -/
structure AddrsRun where
  result : Except String (List IPNet)
  addrs : List IPNet
  events : List AEvent
deriving Repr

/-- The loop body of `AddAddresses`: `existing` is the snapshot returned
by `AddrList(guest, FAMILY_V4)` at entry; `state` is the link's current
full address list.  A desired address whose IP occurs in the snapshot is
skipped; otherwise `netlink.AddrAdd` is attempted: it fails if the exact
pair is already configured (EEXIST), else succeeds or fails per `ok`.
On failure the Go code returns `nil, err`, leaving earlier additions in
place. -/
def addLoop (ok : IPNet → Bool) (existing : List IPNet) :
    List IPNet → List IPNet → AddrsRun
  | state, [] => ⟨Except.ok [], state, []⟩
  | state, c :: rest =>
    if contains existing c then addLoop ok existing state rest
    else if c ∈ state then ⟨Except.error msgAddrAddEexist, state, []⟩
    else if ok c then
      let r := addLoop ok existing (state ++ [c]) rest
      ⟨(match r.result with
         | Except.ok added => Except.ok (c :: added)
         | Except.error e => Except.error e),
       r.addrs, AEvent.addrAdd c :: r.events⟩
    else ⟨Except.error msgAddrAddFail, state, []⟩

/-- Model of `AddAddresses(guest, cidrs)`: list the guest's IPv4
addresses, then add each desired address whose IP value is absent. -/
def addAddresses (ok : IPNet → Bool) (guestAddrs : List IPNet)
    (cidrs : List IPNet) : AddrsRun :=
  addLoop ok (addrListV4 guestAddrs) guestAddrs cidrs

/-- Result of the removal loop of `DetachContainer`. -/
structure RemRun where
  result : Except String Unit
  addrs : List IPNet
  events : List AEvent
deriving Repr

/-- The removal loop of `DetachContainer`: `existing` is the
`AddrList(guest, FAMILY_V4)` snapshot at entry.  An entry of `cidrs`
whose IP does not occur in the snapshot is skipped; otherwise
`netlink.AddrDel` is invoked with the entry, which removes the exact
(IP, prefix-length) pair when configured and fails with EADDRNOTAVAIL
when it is not, aborting the loop. -/
def removeLoop (existing : List IPNet) :
    List IPNet → List IPNet → RemRun
  | state, [] => ⟨Except.ok (), state, []⟩
  | state, c :: rest =>
    if contains existing c then
      if c ∈ state then
        let r := removeLoop existing (state.filter (fun x => !(x == c))) rest
        ⟨r.result, r.addrs, AEvent.addrDel c :: r.events⟩
      else ⟨Except.error msgAddrDelNotFound, state, []⟩
    else removeLoop existing state rest

/-- Lookup of an interface by name inside the namespace
(`netlink.LinkByName` run under WithNetNS). -/
def findIface (w : World) (n : String) : Option Iface :=
  w.ifaces.find? (fun i => i.name == n)

/-- Model of `interfaceExistsInNamespace`: the lookup succeeds. -/
def interfaceExistsInNamespace (w : World) (ifName : String) : Bool :=
  (findIface w ifName).isSome

/-- Replace the addresses and up flag of the named interface. -/
def updIface (w : World) (n : String) (as : List IPNet) (u : Bool) : World :=
  { w with ifaces := w.ifaces.map (fun i => if i.name == n then Iface.mk i.name as u else i) }

/-- Model of `netlink.LinkDel(guest)`: the interface is removed from the
namespace. -/
def delIface (w : World) (n : String) : World :=
  { w with ifaces := w.ifaces.filter (fun i => !(i.name == n)) }

/-- Forwarding-device lookup result: the concrete link type netlink
reports for the named device (`*netlink.Bridge`, `*netlink.GenericLink`
with its type string, `*netlink.Device`, or any other link kind). -/
inductive LinkKind
  | bridge
  | generic (typ : String)
  | device
  | other
deriving DecidableEq, Repr

/-- Classification of the forwarding device, read off the `switch` in
`CreateAndAttachVeth`: a kernel bridge, a generic link of type
"openvswitch", an ambiguous `Device` assumed to be a datapath member, and
everything else unsupported. -/
inductive ForwardingDeviceKind
  | kernelBridge
  | datapathGeneric
  | datapathDevice
  | unsupported
deriving DecidableEq, Repr

/-- Classify a lookup result, mirroring the branches of the `switch` in
`CreateAndAttachVeth`. -/
def classify : LinkKind → ForwardingDeviceKind
  | LinkKind.bridge => ForwardingDeviceKind.kernelBridge
  | LinkKind.generic t =>
    if t == "openvswitch" then ForwardingDeviceKind.datapathGeneric
    else ForwardingDeviceKind.unsupported
  | LinkKind.device => ForwardingDeviceKind.datapathDevice
  | LinkKind.other => ForwardingDeviceKind.unsupported

/-- The `*netlink.Veth` value returned on success. -/
structure Veth where
  name : String
  peerName : String
  mtu : Nat
deriving DecidableEq, Repr

/-- Kernel operations performed by `CreateAndAttachVeth`, in order.
Only operations that succeeded are recorded; `linkDel` is the rollback
deletion of the pair. -/
inductive VEvent
  | linkAdd
  | linkDel
  | setMaster
  | odpAdd
  | peerLookup
  | initRun
  | linkSetUp
deriving DecidableEq, Repr

/-- Environment for one `CreateAndAttachVeth` run: the result of looking
up the forwarding device, its MTU, and the success of each fallible
kernel call.  `initPresent` is whether a caller-supplied `init` was
passed, `initOk` whether it succeeds. -/
structure VethEnv where
  bridgeLookup : Option LinkKind
  bridgeMTU : Nat
  linkAddOk : Bool
  setMasterOk : Bool
  odpAddOk : Bool
  peerLookupOk : Bool
  initPresent : Bool
  initOk : Bool
  linkSetUpOk : Bool
deriving Repr

/-- Result of a `CreateAndAttachVeth` run: the Go return value, whether
the veth pair exists afterwards (both ends exist or neither does), and
the kernel operations performed. -/
structure VethRun where
  result : Except String Veth
  pairExists : Bool
  events : List VEvent
deriving Repr

/-- Model of `CreateAndAttachVeth(localName, peerName, bridgeName, mtu,
init)`.  After a successful `LinkAdd`, every failure path runs `cleanup`,
which deletes the created pair (`netlink.LinkDel(local)`, error ignored)
before returning the error. -/
def createAndAttachVeth (localName peerName bridgeName : String) (mtu : Nat)
    (env : VethEnv) : VethRun :=
  match env.bridgeLookup with
  | none =>
    ⟨Except.error ("bridge " ++ bridgeName ++ " not present; did you launch weave?"),
     false, []⟩
  | some l =>
    let m := if mtu == 0 then env.bridgeMTU else mtu
    if env.linkAddOk then
      let attach : Except String (List VEvent) :=
        match l with
        | LinkKind.bridge =>
          if env.setMasterOk then Except.ok [VEvent.setMaster]
          else Except.error ("unable to set master of " ++ localName)
        | LinkKind.generic t =>
          if t == "openvswitch" then
            if env.odpAddOk then Except.ok [VEvent.odpAdd]
            else Except.error ("failed to attach " ++ localName ++ " to device " ++ bridgeName)
          else Except.error ("device " ++ bridgeName ++ " is of type " ++ t)
        | LinkKind.device =>
          if env.odpAddOk then Except.ok [VEvent.odpAdd]
          else Except.error ("failed to attach " ++ localName ++ " to device " ++ bridgeName)
        | LinkKind.other =>
          Except.error ("device " ++ bridgeName ++ " is not a bridge")
      match attach with
      | Except.error e => ⟨Except.error e, false, [VEvent.linkAdd, VEvent.linkDel]⟩
      | Except.ok aevs =>
        if env.initPresent then
          if env.peerLookupOk then
            if env.initOk then
              if env.linkSetUpOk then
                ⟨Except.ok ⟨localName, peerName, m⟩, true,
                 VEvent.linkAdd :: aevs ++ [VEvent.peerLookup, VEvent.initRun, VEvent.linkSetUp]⟩
              else
                ⟨Except.error "unable to bring veth up", false,
                 VEvent.linkAdd :: aevs ++ [VEvent.peerLookup, VEvent.initRun, VEvent.linkDel]⟩
            else
              ⟨Except.error "initializing veth", false,
               VEvent.linkAdd :: aevs ++ [VEvent.peerLookup, VEvent.linkDel]⟩
          else
            ⟨Except.error ("unable to find guest veth " ++ peerName), false,
             VEvent.linkAdd :: aevs ++ [VEvent.linkDel]⟩
        else
          if env.linkSetUpOk then
            ⟨Except.ok ⟨localName, peerName, m⟩, true,
             VEvent.linkAdd :: aevs ++ [VEvent.linkSetUp]⟩
          else
            ⟨Except.error "unable to bring veth up", false,
             VEvent.linkAdd :: aevs ++ [VEvent.linkDel]⟩
    else
      ⟨Except.error ("could not create veth pair " ++ localName ++ "-" ++ peerName),
       false, []⟩

/-- Identity truncation in `AttachContainer`: `if len(id) > 5 { id = id[:5] }`
(identities are ASCII, so byte and character counts agree). -/
def truncateId (id : String) : String :=
  if id.length > 5 then id.take 5 else id

/-- The local (host-side) interface name derived in `AttachContainer`:
"vethwepl" plus the truncated identity. -/
def localIfName (id : String) : String :=
  "vethwepl" ++ truncateId id

/-- The peer (guest-side) interface name derived in `AttachContainer`:
"vethwg" plus the truncated identity. -/
def peerIfName (id : String) : String :=
  "vethwg" ++ truncateId id

/-- Environment for an `AttachContainer` run: the veth-creation
environment, the success of each `netlink.AddrAdd`, and the success of
`netlink.LinkSetUp` on the guest. -/
structure AttachEnv where
  veth : VethEnv
  addOk : IPNet → Bool
  upOk : Bool

/-- Result of an `AttachContainer` or `DetachContainer` run. -/
structure AttachResult where
  result : Except String Unit
  world : World
  events : List AEvent

/-- The unconditional second stage of `AttachContainer`, the body run
under `WithNetNSLink(ns, ifName, ...)`: resolve the guest, reconcile
addresses via `AddAddresses`, bring the guest up, send a gratuitous ARP
for every newly added address, and finally — only when requested — add
the link-scope multicast route 224.0.0.0/4 (this must come last).
`pre` carries the events of the creation stage. -/
def attachStep2 (env : AttachEnv) (w : World) (ifName : String)
    (withMulticastRoute : Bool) (pre : List AEvent) (cidrs : List IPNet) :
    AttachResult :=
  match findIface w ifName with
  | none => ⟨Except.error msgIfaceNotFound, w, pre⟩
  | some g =>
    let r := addAddresses env.addOk g.addrs cidrs
    match r.result with
    | Except.error e => ⟨Except.error e, updIface w ifName r.addrs g.up, pre ++ r.events⟩
    | Except.ok added =>
      if env.upOk then
        let evs := pre ++ r.events ++ [AEvent.linkUp] ++ added.map (fun a => AEvent.arp a.ip)
        let w2 := updIface w ifName r.addrs true
        if withMulticastRoute then
          ⟨Except.ok (), { w2 with routes := w2.routes ++ [multicastRoute] },
           evs ++ [AEvent.addRoute]⟩
        else ⟨Except.ok (), w2, evs⟩
      else ⟨Except.error msgLinkUpFail, updIface w ifName r.addrs g.up, pre ++ r.events⟩

/-- Model of `AttachContainer(ns, id, ifName, bridgeName, mtu,
withMulticastRoute, cidrs)`.  When no interface named `ifName` exists in
the namespace, the short names are derived from `id` and
`CreateAndAttachVeth` is invoked with an initializer that disables TX
offload on the peer, moves it into the namespace and renames it to
`ifName` (collapsed into the veth environment's init outcome; on success
the guest appears in the namespace with no addresses, administratively
down).  On a creation failure the rollback leaves the namespace
untouched.  Then, unconditionally, the second stage runs. -/
def attachContainer (env : AttachEnv) (w : World) (id ifName bridgeName : String)
    (mtu : Nat) (withMulticastRoute : Bool) (cidrs : List IPNet) : AttachResult :=
  if interfaceExistsInNamespace w ifName then
    attachStep2 env w ifName withMulticastRoute [] cidrs
  else
    let vr := createAndAttachVeth (localIfName id) (peerIfName id) bridgeName mtu env.veth
    match vr.result with
    | Except.error e => ⟨Except.error e, w, [AEvent.createVeth]⟩
    | Except.ok _ =>
      attachStep2 env { w with ifaces := w.ifaces ++ [Iface.mk ifName [] false] }
        ifName withMulticastRoute [AEvent.createVeth] cidrs

/-- Model of `DetachContainer(ns, id, ifName, cidrs)`, the body run under
`WithNetNSLink`: list the guest's IPv4 addresses, remove the requested
ones, re-list, and delete the interface when no IPv4 address remains. -/
def detachContainer (w : World) (id ifName : String) (cidrs : List IPNet) :
    AttachResult :=
  match findIface w ifName with
  | none => ⟨Except.error msgIfaceNotFound, w, []⟩
  | some g =>
    let r := removeLoop (addrListV4 g.addrs) g.addrs cidrs
    match r.result with
    | Except.error e => ⟨Except.error e, updIface w ifName r.addrs g.up, r.events⟩
    | Except.ok _ =>
      if (addrListV4 r.addrs).isEmpty then
        ⟨Except.ok (), delIface w ifName, r.events ++ [AEvent.linkDel]⟩
      else ⟨Except.ok (), updIface w ifName r.addrs g.up, r.events⟩

/-- Boolean success test on a unit-valued result. -/
def isOkU : Except String Unit → Bool
  | Except.ok _ => true
  | Except.error _ => false

/-! Helper lemmas about the address primitives. -/

/-- Matching by IP is monotone under extending the listed addresses. -/
theorem contains_append_left (xs ys : List IPNet) (c : IPNet)
    (h : contains xs c = true) : contains (xs ++ ys) c = true := by
  simp only [contains, List.any_append, Bool.or_eq_true]
  exact Or.inl h

/-- An IPv4 address configured on the link is matched by `contains`
applied to the IPv4 listing. -/
theorem contains_of_mem_v4 (l : List IPNet) (a : IPNet)
    (ha : a ∈ l) (hf : a.ip.fam = Family.v4) :
    contains (addrListV4 l) a = true := by
  simp only [contains, addrListV4, List.any_eq_true, List.mem_filter]
  exact ⟨a, ⟨ha, by simp [hf]⟩, by simp⟩

/-- The IPv4 listing distributes over appending address lists. -/
theorem addrListV4_append (xs ys : List IPNet) :
    addrListV4 (xs ++ ys) = addrListV4 xs ++ addrListV4 ys := by
  simp [addrListV4, List.filter_append]

/-- A link all of whose addresses are IPv6 has an empty IPv4 listing. -/
theorem addrListV4_nil_of_v6 (l : List IPNet)
    (h : ∀ a ∈ l, a.ip.fam = Family.v6) : addrListV4 l = [] := by
  simp only [addrListV4, List.filter_eq_nil_iff]
  intro a ha
  simp [h a ha]

/-- The addition loop only ever appends to the link's address list, and
its events are exactly one `addrAdd` per appended address. -/
theorem addLoop_state_events (ok : IPNet → Bool) (ex : List IPNet) :
    ∀ (cs state : List IPNet),
      ∃ p, (addLoop ok ex state cs).addrs = state ++ p ∧
        (addLoop ok ex state cs).events = p.map AEvent.addrAdd
  | [], state => ⟨[], by simp [addLoop]⟩
  | c :: rest, state => by
    by_cases h1 : contains ex c = true
    · obtain ⟨p, hp1, hp2⟩ := addLoop_state_events ok ex rest state
      exact ⟨p, by simp [addLoop, h1, hp1], by simp [addLoop, h1, hp2]⟩
    · by_cases h2 : c ∈ state
      · exact ⟨[], by simp [addLoop, h1, h2], by simp [addLoop, h1, h2]⟩
      · by_cases h3 : ok c = true
        · obtain ⟨p, hp1, hp2⟩ := addLoop_state_events ok ex rest (state ++ [c])
          refine ⟨c :: p, ?_, ?_⟩
          · simp [addLoop, h1, h2, h3, hp1]
          · simp [addLoop, h1, h2, h3, hp2]
        · exact ⟨[], by simp [addLoop, h1, h2, h3], by simp [addLoop, h1, h2, h3]⟩

/-- When every desired address is already matched by IP in the snapshot,
the addition loop adds nothing, changes nothing and reports nothing. -/
theorem addLoop_all_contained (ok : IPNet → Bool) (ex : List IPNet) :
    ∀ (cs state : List IPNet),
      (∀ c ∈ cs, contains ex c = true) →
      addLoop ok ex state cs = ⟨Except.ok [], state, []⟩
  | [], _, _ => by simp [addLoop]
  | c :: rest, state, h => by
    have h1 : contains ex c = true := h c (by simp)
    simp only [addLoop, h1, if_true]
    exact addLoop_all_contained ok ex rest state (fun x hx => h x (by simp [hx]))

/-- After a successful addition loop, every desired address was either
matched by IP in the snapshot or is configured on the link. -/
theorem addLoop_mem_of_ok (ok : IPNet → Bool) (ex : List IPNet) :
    ∀ (cs state : List IPNet) (added : List IPNet),
      (addLoop ok ex state cs).result = Except.ok added →
      ∀ c ∈ cs, contains ex c = true ∨ c ∈ (addLoop ok ex state cs).addrs
  | [], _, _, _, _, hc => by simp at hc
  | c :: rest, state, added, hres, c', hc' => by
    by_cases h1 : contains ex c = true
    · rcases List.mem_cons.mp hc' with rfl | hmem
      · exact Or.inl h1
      · have hres' : (addLoop ok ex state rest).result = Except.ok added := by
          simpa [addLoop, h1] using hres
        have := addLoop_mem_of_ok ok ex rest state added hres' c' hmem
        simpa [addLoop, h1] using this
    · by_cases h2 : c ∈ state
      · exact absurd hres (by simp [addLoop, h1, h2])
      · by_cases h3 : ok c = true
        · cases hcase : (addLoop ok ex (state ++ [c]) rest).result with
          | error e =>
            exact absurd hres (by simp [addLoop, h1, h2, h3, hcase])
          | ok added' =>
            have haddrs : (addLoop ok ex state (c :: rest)).addrs
                = (addLoop ok ex (state ++ [c]) rest).addrs := by
              simp [addLoop, h1, h2, h3]
            rcases List.mem_cons.mp hc' with rfl | hmem
            · right
              rw [haddrs]
              obtain ⟨p, hp1, _⟩ := addLoop_state_events ok ex rest (state ++ [c'])
              rw [hp1]
              simp
            · rcases addLoop_mem_of_ok ok ex rest (state ++ [c]) added' hcase c' hmem with
                h | h
              · exact Or.inl h
              · right
                rw [haddrs]
                exact h
        · exact absurd hres (by simp [addLoop, h1, h2, h3])

/-- Characterization of a fully successful addition loop: with every add
allowed by the environment, no duplicate desired entry, and no unmatched
desired entry already configured exactly, the loop adds precisely the
desired addresses that are not matched by IP in the snapshot, in desired
order. -/
theorem addLoop_ok_char (ok : IPNet → Bool) (ex : List IPNet) :
    ∀ (cs state : List IPNet),
      (∀ c ∈ cs, ok c = true) →
      (∀ c ∈ cs, ¬ contains ex c = true → c ∉ state) →
      cs.Nodup →
      addLoop ok ex state cs =
        ⟨Except.ok (cs.filter (fun c => !contains ex c)),
         state ++ cs.filter (fun c => !contains ex c),
         (cs.filter (fun c => !contains ex c)).map AEvent.addrAdd⟩
  | [], state, _, _, _ => by simp [addLoop]
  | c :: rest, state, hok, habs, hnd => by
    by_cases h1 : contains ex c = true
    · have hf : (c :: rest).filter (fun x => !contains ex x)
          = rest.filter (fun x => !contains ex x) := by
        simp [List.filter_cons, h1]
      have ih := addLoop_ok_char ok ex rest state
        (fun x hx => hok x (by simp [hx]))
        (fun x hx h => habs x (by simp [hx]) h)
        (List.Nodup.of_cons hnd)
      rw [hf]
      simpa [addLoop, h1] using ih
    · have h2 : c ∉ state := habs c (by simp) h1
      have h3 : ok c = true := hok c (by simp)
      have hcrest : c ∉ rest := (List.nodup_cons.mp hnd).1
      have h1' : contains ex c = false := by simpa using h1
      have hf : (c :: rest).filter (fun x => !contains ex x)
          = c :: rest.filter (fun x => !contains ex x) := by
        simp [List.filter_cons, h1']
      have ih := addLoop_ok_char ok ex rest (state ++ [c])
        (fun x hx => hok x (by simp [hx]))
        (fun x hx h => by
          intro hmem
          rcases List.mem_append.mp hmem with hs | hc
          · exact habs x (by simp [hx]) h hs
          · simp only [List.mem_singleton] at hc
            subst hc
            exact hcrest hx)
        (List.Nodup.of_cons hnd)
      rw [hf]
      simp only [addLoop]
      rw [if_neg h1, if_neg h2, if_pos h3, ih]
      simp [List.append_assoc]

/-- The removal loop with an empty IPv4 snapshot skips every entry. -/
theorem removeLoop_nil_existing :
    ∀ (cs state : List IPNet),
      removeLoop [] state cs = ⟨Except.ok (), state, []⟩
  | [], _ => by simp [removeLoop]
  | c :: rest, state => by
    have h : contains [] c = false := rfl
    simp only [removeLoop, h, Bool.false_eq_true, if_false]
    exact removeLoop_nil_existing rest state

/-- Characterization of a successful removal loop: when every entry of
`cs` whose IP occurs in the snapshot is configured exactly, and `cs` has
no duplicates, the loop succeeds and removes exactly the entries of `cs`
that are configured and IP-visible; every other address is kept. -/
theorem removeLoop_ok_char (ex : List IPNet) :
    ∀ (cs state : List IPNet),
      (∀ c ∈ cs, contains ex c = true → c ∈ state) →
      cs.Nodup →
      (removeLoop ex state cs).result = Except.ok () ∧
      (removeLoop ex state cs).addrs =
        state.filter (fun x => !(decide (x ∈ cs) && contains ex x))
  | [], state, _, _ => by simp [removeLoop]
  | c :: rest, state, hx, hnd => by
    have hcrest : c ∉ rest := (List.nodup_cons.mp hnd).1
    by_cases h1 : contains ex c = true
    · have h2 : c ∈ state := hx c (by simp) h1
      have ih := removeLoop_ok_char ex rest (state.filter (fun x => !(x == c)))
        (fun x hxr hcx => by
          have hxs : x ∈ state := hx x (by simp [hxr]) hcx
          have hne : x ≠ c := by
            rintro rfl
            exact hcrest hxr
          simp [List.mem_filter, hxs, hne])
        (List.Nodup.of_cons hnd)
      refine ⟨?_, ?_⟩
      · simp only [removeLoop, h1, h2, if_true]
        exact ih.1
      · simp only [removeLoop, h1, h2, if_true]
        rw [ih.2, List.filter_filter]
        apply List.filter_congr
        intro x hxs
        by_cases hxc : x = c
        · subst hxc
          simp [h1]
        · simp [hxc, List.mem_cons]
    · have h1' : contains ex c = false := by
        cases hcc : contains ex c
        · rfl
        · exact absurd hcc h1
      have ih := removeLoop_ok_char ex rest state
        (fun x hxr hcx => hx x (by simp [hxr]) hcx)
        (List.Nodup.of_cons hnd)
      refine ⟨?_, ?_⟩
      · simp only [removeLoop, h1', Bool.false_eq_true, if_false]
        exact ih.1
      · simp only [removeLoop, h1', Bool.false_eq_true, if_false]
        rw [ih.2]
        apply List.filter_congr
        intro x hxs
        by_cases hxc : x = c
        · subst hxc
          simp [h1']
        · simp [hxc, List.mem_cons]

/-- A successful interface lookup returns an interface bearing the
looked-up name. -/
theorem findIface_name (w : World) (n : String) (g : Iface)
    (h : findIface w n = some g) : g.name = n := by
  have := List.find?_some h
  simpa using this

/-- Updating the named interface's addresses and up flag preserves its
presence, with the new contents, at the list level. -/
theorem find_upd_list (n : String) (as : List IPNet) (u : Bool) :
    ∀ (l : List Iface) (g : Iface),
      l.find? (fun i => i.name == n) = some g →
      (l.map (fun i => if i.name == n then Iface.mk i.name as u else i)).find?
          (fun i => i.name == n) = some (Iface.mk g.name as u)
  | [], g, h => by cases h
  | i :: t, g, h => by
    by_cases hn : (i.name == n) = true
    · rw [@List.find?_cons_of_pos _ (fun j => j.name == n) i t hn] at h
      injection h with h
      subst h
      simp only [List.map_cons, hn, if_true]
      exact @List.find?_cons_of_pos _ (fun j => j.name == n) (Iface.mk i.name as u)
        (t.map (fun i => if i.name == n then Iface.mk i.name as u else i)) hn
    · rw [@List.find?_cons_of_neg _ (fun j => j.name == n) i t hn] at h
      have ih := find_upd_list n as u t g h
      simp only [List.map_cons]
      rw [if_neg hn]
      rw [@List.find?_cons_of_neg _ (fun j => j.name == n) i
        (t.map (fun i => if i.name == n then Iface.mk i.name as u else i)) hn]
      exact ih

/-- Updating the named interface's addresses and up flag preserves its
presence, with the new contents. -/
theorem findIface_updIface (w : World) (n : String) (as : List IPNet) (u : Bool)
    (g : Iface) (hg : findIface w n = some g) :
    findIface (updIface w n as u) n = some (Iface.mk g.name as u) :=
  find_upd_list n as u w.ifaces g hg

/-- After deleting the named interface it can no longer be found. -/
theorem findIface_delIface (w : World) (n : String) :
    findIface (delIface w n) n = none := by
  simp only [findIface, delIface, List.find?_eq_none]
  intro i hi
  have := (List.mem_filter.mp hi).2
  simpa using this

/-- Wrapper of `addLoop_state_events` at the `addAddresses` level. -/
theorem addAddresses_state_events (ok : IPNet → Bool) (guestAddrs cidrs : List IPNet) :
    ∃ p, (addAddresses ok guestAddrs cidrs).addrs = guestAddrs ++ p ∧
      (addAddresses ok guestAddrs cidrs).events = p.map AEvent.addrAdd :=
  addLoop_state_events ok (addrListV4 guestAddrs) cidrs guestAddrs

/-- Wrapper of `addLoop_mem_of_ok` at the `addAddresses` level. -/
theorem addAddresses_mem_of_ok (ok : IPNet → Bool) (guestAddrs cidrs added : List IPNet)
    (h : (addAddresses ok guestAddrs cidrs).result = Except.ok added) :
    ∀ c ∈ cidrs, contains (addrListV4 guestAddrs) c = true ∨
      c ∈ (addAddresses ok guestAddrs cidrs).addrs :=
  addLoop_mem_of_ok ok (addrListV4 guestAddrs) cidrs guestAddrs added h

/-- Wrapper of `addLoop_all_contained` at the `addAddresses` level. -/
theorem addAddresses_all_contained (ok : IPNet → Bool) (guestAddrs cidrs : List IPNet)
    (h : ∀ c ∈ cidrs, contains (addrListV4 guestAddrs) c = true) :
    addAddresses ok guestAddrs cidrs = ⟨Except.ok [], guestAddrs, []⟩ :=
  addLoop_all_contained ok (addrListV4 guestAddrs) cidrs guestAddrs h

/-- Shape of a fully successful second attach stage. -/
theorem attachStep2_shape (env : AttachEnv) (w : World) (ifName : String)
    (wmr : Bool) (pre : List AEvent) (cidrs : List IPNet) (g : Iface)
    (added : List IPNet)
    (hg : findIface w ifName = some g)
    (hres : (addAddresses env.addOk g.addrs cidrs).result = Except.ok added)
    (hup : env.upOk = true) :
    (attachStep2 env w ifName wmr pre cidrs).result = Except.ok () ∧
    findIface (attachStep2 env w ifName wmr pre cidrs).world ifName
      = some (Iface.mk g.name (addAddresses env.addOk g.addrs cidrs).addrs true) ∧
    (attachStep2 env w ifName wmr pre cidrs).events
      = pre ++ (addAddresses env.addOk g.addrs cidrs).events ++ [AEvent.linkUp]
        ++ added.map (fun a => AEvent.arp a.ip)
        ++ (if wmr then [AEvent.addRoute] else []) := by
  have hfind := findIface_updIface w ifName
    (addAddresses env.addOk g.addrs cidrs).addrs true g hg
  cases wmr with
  | true =>
    have hs : attachStep2 env w ifName true pre cidrs =
        ⟨Except.ok (),
          { updIface w ifName (addAddresses env.addOk g.addrs cidrs).addrs true with
            routes :=
              (updIface w ifName (addAddresses env.addOk g.addrs cidrs).addrs true).routes
                ++ [multicastRoute] },
          (pre ++ (addAddresses env.addOk g.addrs cidrs).events ++ [AEvent.linkUp]
            ++ added.map (fun a => AEvent.arp a.ip)) ++ [AEvent.addRoute]⟩ := by
      simp [attachStep2, hg, hres, hup]
    rw [hs]
    refine ⟨rfl, ?_, by simp [List.append_assoc]⟩
    exact hfind
  | false =>
    have hs : attachStep2 env w ifName false pre cidrs =
        ⟨Except.ok (), updIface w ifName (addAddresses env.addOk g.addrs cidrs).addrs true,
          pre ++ (addAddresses env.addOk g.addrs cidrs).events ++ [AEvent.linkUp]
            ++ added.map (fun a => AEvent.arp a.ip)⟩ := by
      simp [attachStep2, hg, hres, hup]
    rw [hs]
    exact ⟨rfl, hfind, by simp⟩

/-- Shape of the second attach stage when address reconciliation fails:
the error propagates, the partially added addresses stay on the guest,
and no further event is produced. -/
theorem attachStep2_err (env : AttachEnv) (w : World) (ifName : String)
    (wmr : Bool) (pre : List AEvent) (cidrs : List IPNet) (g : Iface) (e : String)
    (hg : findIface w ifName = some g)
    (hres : (addAddresses env.addOk g.addrs cidrs).result = Except.error e) :
    (attachStep2 env w ifName wmr pre cidrs).result = Except.error e ∧
    (attachStep2 env w ifName wmr pre cidrs).world
      = updIface w ifName (addAddresses env.addOk g.addrs cidrs).addrs g.up ∧
    (attachStep2 env w ifName wmr pre cidrs).events
      = pre ++ (addAddresses env.addOk g.addrs cidrs).events := by
  have hs : attachStep2 env w ifName wmr pre cidrs =
      ⟨Except.error e, updIface w ifName (addAddresses env.addOk g.addrs cidrs).addrs g.up,
        pre ++ (addAddresses env.addOk g.addrs cidrs).events⟩ := by
    simp [attachStep2, hg, hres]
  rw [hs]
  exact ⟨rfl, rfl, rfl⟩

/-- Shape of the second attach stage when bringing the guest up fails. -/
theorem attachStep2_upfail (env : AttachEnv) (w : World) (ifName : String)
    (wmr : Bool) (pre : List AEvent) (cidrs : List IPNet) (g : Iface)
    (added : List IPNet)
    (hg : findIface w ifName = some g)
    (hres : (addAddresses env.addOk g.addrs cidrs).result = Except.ok added)
    (hup : env.upOk = false) :
    (attachStep2 env w ifName wmr pre cidrs).result = Except.error msgLinkUpFail ∧
    (attachStep2 env w ifName wmr pre cidrs).world
      = updIface w ifName (addAddresses env.addOk g.addrs cidrs).addrs g.up ∧
    (attachStep2 env w ifName wmr pre cidrs).events
      = pre ++ (addAddresses env.addOk g.addrs cidrs).events := by
  have hs : attachStep2 env w ifName wmr pre cidrs =
      ⟨Except.error msgLinkUpFail,
        updIface w ifName (addAddresses env.addOk g.addrs cidrs).addrs g.up,
        pre ++ (addAddresses env.addOk g.addrs cidrs).events⟩ := by
    simp [attachStep2, hg, hres, hup]
  rw [hs]
  exact ⟨rfl, rfl, rfl⟩

/-- A successful-stage event list never mentions veth creation. -/
theorem no_createVeth_mem (p added : List IPNet) (b : Bool) :
    AEvent.createVeth ∉ ([] : List AEvent) ++ p.map AEvent.addrAdd ++ [AEvent.linkUp]
      ++ added.map (fun a => AEvent.arp a.ip)
      ++ (if b then [AEvent.addRoute] else []) := by
  cases b <;> simp

/-! Claim theorems. -/

/-- C3: for every list of existing addresses and every desired list (an
AddressSet: no duplicate entries, IPv4, with every kernel add allowed by
the environment), `AddAddresses` adds exactly those desired addresses
whose IP value — ignoring prefix length — is not already present on the
link, skipping a desired address whenever an existing address has the
same IP even with a different prefix length, and returns exactly the
added addresses in the order they appear in the desired list. -/
theorem addAddresses_adds_absent (ok : IPNet → Bool) (guestAddrs cidrs : List IPNet)
    (hok : ∀ c ∈ cidrs, ok c = true)
    (hfam : ∀ c ∈ cidrs, c.ip.fam = Family.v4)
    (hnd : cidrs.Nodup) :
    (addAddresses ok guestAddrs cidrs).result =
      Except.ok (cidrs.filter (fun c => !contains (addrListV4 guestAddrs) c)) ∧
    (addAddresses ok guestAddrs cidrs).addrs =
      guestAddrs ++ cidrs.filter (fun c => !contains (addrListV4 guestAddrs) c) := by
  have habs : ∀ c ∈ cidrs, ¬ contains (addrListV4 guestAddrs) c = true →
      c ∉ guestAddrs := by
    intro c hc hnc hmem
    exact hnc (contains_of_mem_v4 guestAddrs c hmem (hfam c hc))
  have h := addLoop_ok_char ok (addrListV4 guestAddrs) cidrs guestAddrs hok habs hnd
  unfold addAddresses
  rw [h]
  exact ⟨rfl, rfl⟩

/-- C3 witness: the spec example — existing 10.0.0.1/24, desired
10.0.0.1/16 and 10.0.0.2/24; only 10.0.0.2/24 is added and returned
(10.0.0.1 is present regardless of prefix length). -/
theorem addAddresses_adds_absent_witness :
    (addAddresses (fun _ => true) [⟨⟨Family.v4, 167772161⟩, 24⟩]
      [⟨⟨Family.v4, 167772161⟩, 16⟩, ⟨⟨Family.v4, 167772162⟩, 24⟩]).result =
        Except.ok [⟨⟨Family.v4, 167772162⟩, 24⟩] ∧
    (addAddresses (fun _ => true) [⟨⟨Family.v4, 167772161⟩, 24⟩]
      [⟨⟨Family.v4, 167772161⟩, 16⟩, ⟨⟨Family.v4, 167772162⟩, 24⟩]).addrs =
        [⟨⟨Family.v4, 167772161⟩, 24⟩, ⟨⟨Family.v4, 167772162⟩, 24⟩] := by
  have h := addAddresses_adds_absent (fun _ => true) [⟨⟨Family.v4, 167772161⟩, 24⟩]
    [⟨⟨Family.v4, 167772161⟩, 16⟩, ⟨⟨Family.v4, 167772162⟩, 24⟩]
    (by decide) (by decide) (by decide)
  exact ⟨h.1.trans (by rfl), h.2.trans (by rfl)⟩

/-- C2 counterexample: with 10.0.0.2/24 configured, detaching with
toRemove containing 10.0.0.2/16 — an entry that is NOT present as an
exact (IP, prefix-length) match but whose IP is present — is not
silently skipped: the IP-only `contains` guard passes, `netlink.AddrDel`
is invoked with a pair that is not configured, and the call fails
(kernel EADDRNOTAVAIL), returning an error with no address removed. -/
theorem detachRemoval_cex :
    (detachContainer ⟨[Iface.mk "ethwe" [⟨⟨Family.v4, 167772162⟩, 24⟩] true], []⟩
        "abcde" "ethwe" [⟨⟨Family.v4, 167772162⟩, 16⟩]).result =
      Except.error msgAddrDelNotFound ∧
    isOkU (detachContainer ⟨[Iface.mk "ethwe" [⟨⟨Family.v4, 167772162⟩, 24⟩] true], []⟩
        "abcde" "ethwe" [⟨⟨Family.v4, 167772162⟩, 16⟩]).result = false ∧
    (detachContainer ⟨[Iface.mk "ethwe" [⟨⟨Family.v4, 167772162⟩, 24⟩] true], []⟩
        "abcde" "ethwe" [⟨⟨Family.v4, 167772162⟩, 16⟩]).world =
      ⟨[Iface.mk "ethwe" [⟨⟨Family.v4, 167772162⟩, 24⟩] true], []⟩ :=
  ⟨rfl, rfl, rfl⟩

/-- C2 (amended): on detach, entries of toRemove whose IP is absent from
the interface's IPv4 listing are silently skipped; provided every entry
whose IP is present is an exact (IP, prefix-length) match (and toRemove
has no duplicates), the removal succeeds and removes exactly the entries
of toRemove configured on the interface and visible in the IPv4 listing;
no other address is removed.  (An entry whose IP is present with a
different prefix length instead makes the call fail — see the
counterexample.) -/
theorem detachRemoval_exact (existing cidrs : List IPNet)
    (hx : ∀ c ∈ cidrs, contains (addrListV4 existing) c = true → c ∈ existing)
    (hnd : cidrs.Nodup) :
    (removeLoop (addrListV4 existing) existing cidrs).result = Except.ok () ∧
    (removeLoop (addrListV4 existing) existing cidrs).addrs =
      existing.filter
        (fun x => !(decide (x ∈ cidrs) && contains (addrListV4 existing) x)) :=
  removeLoop_ok_char (addrListV4 existing) cidrs existing hx hnd

/-- C2 witness: the spec example — existing 10.0.0.1/24 and 10.0.0.2/24,
toRemove 10.0.0.2/24; the removal succeeds and only that entry is
removed. -/
theorem detachRemoval_exact_witness :
    (removeLoop
        (addrListV4 [⟨⟨Family.v4, 167772161⟩, 24⟩, ⟨⟨Family.v4, 167772162⟩, 24⟩])
        [⟨⟨Family.v4, 167772161⟩, 24⟩, ⟨⟨Family.v4, 167772162⟩, 24⟩]
        [⟨⟨Family.v4, 167772162⟩, 24⟩]).result = Except.ok () ∧
    (removeLoop
        (addrListV4 [⟨⟨Family.v4, 167772161⟩, 24⟩, ⟨⟨Family.v4, 167772162⟩, 24⟩])
        [⟨⟨Family.v4, 167772161⟩, 24⟩, ⟨⟨Family.v4, 167772162⟩, 24⟩]
        [⟨⟨Family.v4, 167772162⟩, 24⟩]).addrs = [⟨⟨Family.v4, 167772161⟩, 24⟩] := by
  have h := detachRemoval_exact
    [⟨⟨Family.v4, 167772161⟩, 24⟩, ⟨⟨Family.v4, 167772162⟩, 24⟩]
    [⟨⟨Family.v4, 167772162⟩, 24⟩] (by decide) (by decide)
  exact ⟨h.1, h.2.trans (by rfl)⟩

/-- C6: on detach, after the requested removals succeed, the interface
is deleted exactly when its remaining (IPv4) address listing is empty;
when any listed address remains the interface is left in place with the
remaining addresses, supporting future reattachment. -/
theorem detachContainer_deletes_iff_empty (w : World) (id ifName : String)
    (cidrs : List IPNet) (g : Iface)
    (hg : findIface w ifName = some g)
    (hok : (removeLoop (addrListV4 g.addrs) g.addrs cidrs).result = Except.ok ()) :
    (detachContainer w id ifName cidrs).result = Except.ok () ∧
    (addrListV4 (removeLoop (addrListV4 g.addrs) g.addrs cidrs).addrs = [] →
      findIface (detachContainer w id ifName cidrs).world ifName = none) ∧
    (addrListV4 (removeLoop (addrListV4 g.addrs) g.addrs cidrs).addrs ≠ [] →
      findIface (detachContainer w id ifName cidrs).world ifName =
        some (Iface.mk g.name
          (removeLoop (addrListV4 g.addrs) g.addrs cidrs).addrs g.up)) := by
  have hd : detachContainer w id ifName cidrs =
      (if (addrListV4 (removeLoop (addrListV4 g.addrs) g.addrs cidrs).addrs).isEmpty then
        ⟨Except.ok (), delIface w ifName,
          (removeLoop (addrListV4 g.addrs) g.addrs cidrs).events ++ [AEvent.linkDel]⟩
      else
        ⟨Except.ok (),
          updIface w ifName (removeLoop (addrListV4 g.addrs) g.addrs cidrs).addrs g.up,
          (removeLoop (addrListV4 g.addrs) g.addrs cidrs).events⟩ : AttachResult) := by
    simp only [detachContainer, hg, hok]
  by_cases he : addrListV4 (removeLoop (addrListV4 g.addrs) g.addrs cidrs).addrs = []
  · have hb : (addrListV4 (removeLoop (addrListV4 g.addrs) g.addrs cidrs).addrs).isEmpty
        = true := List.isEmpty_iff.mpr he
    rw [hd, if_pos hb]
    exact ⟨rfl, fun _ => findIface_delIface w ifName, fun hne => absurd he hne⟩
  · have hb : ¬ (addrListV4 (removeLoop (addrListV4 g.addrs) g.addrs cidrs).addrs).isEmpty
        = true := fun h => he (List.isEmpty_iff.mp h)
    rw [hd, if_neg hb]
    exact ⟨rfl, fun hemp => absurd hemp he,
      fun _ => findIface_updIface w ifName _ g.up g hg⟩

/-- C6 witness: existing 10.0.0.1/24 and 10.0.0.2/24, cidrs 10.0.0.2/24;
the detach succeeds and the interface remains with 10.0.0.1/24. -/
theorem detachContainer_deletes_iff_empty_witness :
    (detachContainer ⟨[Iface.mk "ethwe"
        [⟨⟨Family.v4, 167772161⟩, 24⟩, ⟨⟨Family.v4, 167772162⟩, 24⟩] true], []⟩
        "abcde" "ethwe" [⟨⟨Family.v4, 167772162⟩, 24⟩]).result = Except.ok () ∧
    findIface (detachContainer ⟨[Iface.mk "ethwe"
        [⟨⟨Family.v4, 167772161⟩, 24⟩, ⟨⟨Family.v4, 167772162⟩, 24⟩] true], []⟩
        "abcde" "ethwe" [⟨⟨Family.v4, 167772162⟩, 24⟩]).world "ethwe" =
      some (Iface.mk "ethwe" [⟨⟨Family.v4, 167772161⟩, 24⟩] true) := by
  have h := detachContainer_deletes_iff_empty
    ⟨[Iface.mk "ethwe"
        [⟨⟨Family.v4, 167772161⟩, 24⟩, ⟨⟨Family.v4, 167772162⟩, 24⟩] true], []⟩
    "abcde" "ethwe" [⟨⟨Family.v4, 167772162⟩, 24⟩]
    (Iface.mk "ethwe" [⟨⟨Family.v4, 167772161⟩, 24⟩, ⟨⟨Family.v4, 167772162⟩, 24⟩] true)
    rfl rfl
  exact ⟨h.1, (h.2.2 (by decide)).trans (by rfl)⟩

/-- C10: address listing for reconciliation and detach queries only the
IPv4 family, so IPv6 addresses are invisible to the membership checks
and to the empty-list test: an interface whose addresses are all IPv6
has an empty listing, matches nothing, and is deleted on detach as if it
had no addresses. -/
theorem detach_ipv4_only (w : World) (id ifName : String) (cidrs : List IPNet)
    (g : Iface)
    (hg : findIface w ifName = some g)
    (h6 : ∀ a ∈ g.addrs, a.ip.fam = Family.v6) :
    addrListV4 g.addrs = [] ∧
    (∀ c, contains (addrListV4 g.addrs) c = false) ∧
    (detachContainer w id ifName cidrs).result = Except.ok () ∧
    findIface (detachContainer w id ifName cidrs).world ifName = none := by
  have h0 : addrListV4 g.addrs = [] := addrListV4_nil_of_v6 g.addrs h6
  have hc : ∀ c, contains (addrListV4 g.addrs) c = false := by
    intro c
    rw [h0]
    rfl
  have hrl : removeLoop [] g.addrs cidrs = ⟨Except.ok (), g.addrs, []⟩ :=
    removeLoop_nil_existing cidrs g.addrs
  have hd : detachContainer w id ifName cidrs =
      ⟨Except.ok (), delIface w ifName, [] ++ [AEvent.linkDel]⟩ := by
    simp only [detachContainer, hg, h0, hrl, List.isEmpty_nil, if_true]
  rw [hd]
  exact ⟨h0, hc, rfl, findIface_delIface w ifName⟩

/-- C10 witness: an interface holding only an IPv6 address is treated as
empty and deleted by detach with an empty removal list. -/
theorem detach_ipv4_only_witness :
    addrListV4 [⟨⟨Family.v6, 42⟩, 64⟩] = [] ∧
    (detachContainer ⟨[Iface.mk "ethwe" [⟨⟨Family.v6, 42⟩, 64⟩] true], []⟩
        "abcde" "ethwe" []).result = Except.ok () ∧
    findIface (detachContainer ⟨[Iface.mk "ethwe" [⟨⟨Family.v6, 42⟩, 64⟩] true], []⟩
        "abcde" "ethwe" []).world "ethwe" = none := by
  have h := detach_ipv4_only ⟨[Iface.mk "ethwe" [⟨⟨Family.v6, 42⟩, 64⟩] true], []⟩
    "abcde" "ethwe" [] (Iface.mk "ethwe" [⟨⟨Family.v6, 42⟩, 64⟩] true)
    rfl (by decide)
  exact ⟨h.1, h.2.2.1, h.2.2.2⟩

/-- C8: the interface names used by AttachContainer are a deterministic
function of the container identity: the identity is truncated to its
first 5 characters when longer, the names are that short identity
appended to the fixed local/peer stems "vethwepl" and "vethwg", and
identity "abcdefgh" yields the same names as its 5-character prefix
"abcde" on every call. -/
theorem attachNames_deterministic :
    (∀ id : String, localIfName id = "vethwepl" ++ truncateId id ∧
        peerIfName id = "vethwg" ++ truncateId id) ∧
    (∀ id : String, id.length > 5 → truncateId id = id.take 5) ∧
    (∀ id : String, ¬ id.length > 5 → truncateId id = id) ∧
    localIfName "abcdefgh" = "vethweplabcde" ∧
    peerIfName "abcdefgh" = "vethwgabcde" ∧
    localIfName "abcdefgh" = localIfName "abcde" ∧
    peerIfName "abcdefgh" = peerIfName "abcde" := by
  refine ⟨fun id => ⟨rfl, rfl⟩, fun id h => ?_, fun id h => ?_,
    by decide, by decide, by decide, by decide⟩
  · unfold truncateId
    exact if_pos h
  · unfold truncateId
    exact if_neg h

/-- C8 witness: the over-long identity "abcdefgh" is truncated to its
5-character head. -/
theorem attachNames_deterministic_witness :
    truncateId "abcdefgh" = "abcdefgh".take 5 :=
  attachNames_deterministic.2.1 "abcdefgh" (by decide)

/-- C1: for every failure of `CreateAndAttachVeth` occurring after the
veth pair has been created (master-set failure, datapath port-add
failure, unsupported-device classification, peer-handle resolution
failure, failure of the caller-supplied init, link-up failure), the
created pair is deleted before the error is returned, so no dangling
interface survives a failed attach. -/
theorem createAndAttachVeth_rollback (ln pn bn : String) (mtu : Nat) (env : VethEnv)
    (l : LinkKind) (e : String)
    (hl : env.bridgeLookup = some l)
    (ha : env.linkAddOk = true)
    (he : (createAndAttachVeth ln pn bn mtu env).result = Except.error e) :
    (createAndAttachVeth ln pn bn mtu env).pairExists = false ∧
    VEvent.linkAdd ∈ (createAndAttachVeth ln pn bn mtu env).events ∧
    VEvent.linkDel ∈ (createAndAttachVeth ln pn bn mtu env).events := by
  rcases env with ⟨bl, bm, f1, f2, f3, f4, f5, f6, f7⟩
  dsimp only at hl ha
  subst hl
  subst ha
  cases l with
  | bridge =>
    cases f2 <;> cases f4 <;> cases f5 <;> cases f6 <;> cases f7 <;>
      simp_all [createAndAttachVeth]
  | generic t =>
    by_cases ht : (t == "openvswitch") = true <;>
      cases f3 <;> cases f4 <;> cases f5 <;> cases f6 <;> cases f7 <;>
        simp_all [createAndAttachVeth]
  | device =>
    cases f3 <;> cases f4 <;> cases f5 <;> cases f6 <;> cases f7 <;>
      simp_all [createAndAttachVeth]
  | other =>
    simp_all [createAndAttachVeth]

/-- C1 witness: a bridge device whose master-set call fails — the run
errors, the pair was created, and the rollback deletion happened. -/
theorem createAndAttachVeth_rollback_witness :
    (createAndAttachVeth "vethweplabcde" "vethwgabcde" "weave" 1500
        ⟨some LinkKind.bridge, 65535, true, false, true, true, true, true, true⟩).pairExists
      = false ∧
    VEvent.linkAdd ∈ (createAndAttachVeth "vethweplabcde" "vethwgabcde" "weave" 1500
        ⟨some LinkKind.bridge, 65535, true, false, true, true, true, true, true⟩).events ∧
    VEvent.linkDel ∈ (createAndAttachVeth "vethweplabcde" "vethwgabcde" "weave" 1500
        ⟨some LinkKind.bridge, 65535, true, false, true, true, true, true, true⟩).events :=
  createAndAttachVeth_rollback "vethweplabcde" "vethwgabcde" "weave" 1500
    ⟨some LinkKind.bridge, 65535, true, false, true, true, true, true, true⟩
    LinkKind.bridge "unable to set master of vethweplabcde" rfl rfl rfl

/-- C7: when the looked-up forwarding device classifies as Unsupported
(a generic link whose type is not "openvswitch", or any unrecognized
link kind) `CreateAndAttachVeth` returns an unsupported-device error,
rolls the created pair back, and attempts no kernel attach call (no
master-set, no datapath port-add); classification is total — every
lookup result maps to exactly one of the four variants. -/
theorem createAndAttachVeth_unsupported (ln pn bn : String) (mtu : Nat) (env : VethEnv)
    (l : LinkKind)
    (hl : env.bridgeLookup = some l)
    (hu : classify l = ForwardingDeviceKind.unsupported)
    (ha : env.linkAddOk = true) :
    (∃ e, (createAndAttachVeth ln pn bn mtu env).result = Except.error e) ∧
    (createAndAttachVeth ln pn bn mtu env).pairExists = false ∧
    VEvent.setMaster ∉ (createAndAttachVeth ln pn bn mtu env).events ∧
    VEvent.odpAdd ∉ (createAndAttachVeth ln pn bn mtu env).events ∧
    (∀ t, classify (LinkKind.generic t) = ForwardingDeviceKind.unsupported ↔
      t ≠ "openvswitch") ∧
    classify LinkKind.other = ForwardingDeviceKind.unsupported ∧
    (∀ k, classify k = ForwardingDeviceKind.kernelBridge ∨
      classify k = ForwardingDeviceKind.datapathGeneric ∨
      classify k = ForwardingDeviceKind.datapathDevice ∨
      classify k = ForwardingDeviceKind.unsupported) := by
  have hgen : ∀ t, classify (LinkKind.generic t) = ForwardingDeviceKind.unsupported ↔
      t ≠ "openvswitch" := by
    intro t
    by_cases ht : t = "openvswitch"
    · subst ht
      simp [classify]
    · simp [classify, ht]
  have htot : ∀ k, classify k = ForwardingDeviceKind.kernelBridge ∨
      classify k = ForwardingDeviceKind.datapathGeneric ∨
      classify k = ForwardingDeviceKind.datapathDevice ∨
      classify k = ForwardingDeviceKind.unsupported := by
    intro k
    cases k with
    | bridge => exact Or.inl rfl
    | generic t =>
      by_cases ht : t = "openvswitch"
      · subst ht
        exact Or.inr (Or.inl (by simp [classify]))
      · exact Or.inr (Or.inr (Or.inr (by simp [classify, ht])))
    | device => exact Or.inr (Or.inr (Or.inl rfl))
    | other => exact Or.inr (Or.inr (Or.inr rfl))
  rcases env with ⟨bl, bm, f1, f2, f3, f4, f5, f6, f7⟩
  dsimp only at hl ha
  subst hl
  subst ha
  cases l with
  | bridge => exact absurd hu (by simp [classify])
  | device => exact absurd hu (by simp [classify])
  | generic t =>
    have ht : ¬ t = "openvswitch" := (hgen t).mp hu
    have ht' : (t == "openvswitch") = false := by simp [ht]
    refine ⟨⟨"device " ++ bn ++ " is of type " ++ t, ?_⟩, ?_, ?_, ?_, hgen, rfl, htot⟩ <;>
      simp [createAndAttachVeth, ht']
  | other =>
    refine ⟨⟨"device " ++ bn ++ " is not a bridge", ?_⟩, ?_, ?_, ?_, hgen, rfl, htot⟩ <;>
      simp [createAndAttachVeth]

/-- Route-ordering property of the second attach stage: the multicast
route event appears only when requested, and then as the very last
event, after the link-up event. -/
theorem attachStep2_route (env : AttachEnv) (w : World) (ifName : String)
    (wmr : Bool) (pre : List AEvent) (cidrs : List IPNet)
    (hpre : AEvent.addRoute ∉ pre) :
    (wmr = false → AEvent.addRoute ∉ (attachStep2 env w ifName wmr pre cidrs).events) ∧
    (AEvent.addRoute ∈ (attachStep2 env w ifName wmr pre cidrs).events →
      wmr = true ∧
      ∃ l, (attachStep2 env w ifName wmr pre cidrs).events = l ++ [AEvent.addRoute] ∧
        AEvent.linkUp ∈ l ∧ AEvent.addRoute ∉ l) := by
  cases hf : findIface w ifName with
  | none =>
    have hs : attachStep2 env w ifName wmr pre cidrs
        = ⟨Except.error msgIfaceNotFound, w, pre⟩ := by
      simp [attachStep2, hf]
    rw [hs]
    exact ⟨fun _ => hpre, fun hmem => absurd hmem hpre⟩
  | some g =>
    obtain ⟨p, hp1, hp2⟩ := addAddresses_state_events env.addOk g.addrs cidrs
    have hnr : AEvent.addRoute ∉ (addAddresses env.addOk g.addrs cidrs).events := by
      rw [hp2]
      simp
    cases hres : (addAddresses env.addOk g.addrs cidrs).result with
    | error e =>
      obtain ⟨_, _, hev⟩ := attachStep2_err env w ifName wmr pre cidrs g e hf hres
      rw [hev]
      have hni : AEvent.addRoute ∉ pre ++ (addAddresses env.addOk g.addrs cidrs).events := by
        intro h
        rcases List.mem_append.mp h with h | h
        · exact hpre h
        · exact hnr h
      exact ⟨fun _ => hni, fun hmem => absurd hmem hni⟩
    | ok added =>
      cases hup : env.upOk with
      | false =>
        obtain ⟨_, _, hev⟩ := attachStep2_upfail env w ifName wmr pre cidrs g added hf hres hup
        rw [hev]
        have hni : AEvent.addRoute ∉ pre ++ (addAddresses env.addOk g.addrs cidrs).events := by
          intro h
          rcases List.mem_append.mp h with h | h
          · exact hpre h
          · exact hnr h
        exact ⟨fun _ => hni, fun hmem => absurd hmem hni⟩
      | true =>
        obtain ⟨_, _, hev⟩ := attachStep2_shape env w ifName wmr pre cidrs g added hf hres hup
        have hne : AEvent.addRoute ∉
            pre ++ (addAddresses env.addOk g.addrs cidrs).events ++ [AEvent.linkUp]
              ++ added.map (fun a => AEvent.arp a.ip) := by
          intro h
          simp only [List.mem_append, List.mem_singleton, List.mem_map] at h
          rcases h with ((h | h) | h) | ⟨a, _, ha⟩
          · exact hpre h
          · exact hnr h
          · exact AEvent.noConfusion h
          · exact AEvent.noConfusion ha
        cases wmr with
        | false =>
          rw [hev]
          simp only [if_neg Bool.false_ne_true]
          rw [List.append_nil]
          exact ⟨fun _ => hne, fun hmem => absurd hmem hne⟩
        | true =>
          rw [hev]
          simp only [if_pos rfl]
          refine ⟨fun hcontra => Bool.noConfusion hcontra, fun _ => ⟨by trivial, ?_⟩⟩
          exact ⟨pre ++ (addAddresses env.addOk g.addrs cidrs).events ++ [AEvent.linkUp]
              ++ added.map (fun a => AEvent.arp a.ip), rfl, by simp, hne⟩

/-- C5: in AttachContainer the multicast route event occurs only when
`withMulticastRoute` is true, and when it occurs it is the last event of
the attach sequence, strictly after the guest link-up event and strictly
after every gratuitous-ARP event of the call. -/
theorem attachContainer_multicast_route_last (env : AttachEnv) (w : World)
    (id ifName bridgeName : String) (mtu : Nat) (wmr : Bool) (cidrs : List IPNet) :
    (wmr = false →
      AEvent.addRoute ∉ (attachContainer env w id ifName bridgeName mtu wmr cidrs).events) ∧
    (AEvent.addRoute ∈ (attachContainer env w id ifName bridgeName mtu wmr cidrs).events →
      wmr = true ∧
      ∃ l, (attachContainer env w id ifName bridgeName mtu wmr cidrs).events
          = l ++ [AEvent.addRoute] ∧
        AEvent.linkUp ∈ l ∧
        (∀ ip, AEvent.arp ip ∈
            (attachContainer env w id ifName bridgeName mtu wmr cidrs).events →
          AEvent.arp ip ∈ l) ∧
        AEvent.addRoute ∉ l) := by
  have key : ∀ (r : AttachResult),
      ((wmr = false → AEvent.addRoute ∉ r.events) ∧
       (AEvent.addRoute ∈ r.events → wmr = true ∧
        ∃ l, r.events = l ++ [AEvent.addRoute] ∧
          AEvent.linkUp ∈ l ∧ AEvent.addRoute ∉ l)) →
      ((wmr = false → AEvent.addRoute ∉ r.events) ∧
       (AEvent.addRoute ∈ r.events → wmr = true ∧
        ∃ l, r.events = l ++ [AEvent.addRoute] ∧
          AEvent.linkUp ∈ l ∧
          (∀ ip, AEvent.arp ip ∈ r.events → AEvent.arp ip ∈ l) ∧
          AEvent.addRoute ∉ l)) := by
    rintro r ⟨h1, h2⟩
    refine ⟨h1, fun hmem => ?_⟩
    obtain ⟨hw, l, hl, hup, hnr⟩ := h2 hmem
    refine ⟨hw, l, hl, hup, ?_, hnr⟩
    intro ip hip
    rw [hl] at hip
    rcases List.mem_append.mp hip with h | h
    · exact h
    · simp only [List.mem_singleton] at h
      exact AEvent.noConfusion h
  by_cases hex : interfaceExistsInNamespace w ifName = true
  · have hA : attachContainer env w id ifName bridgeName mtu wmr cidrs
        = attachStep2 env w ifName wmr [] cidrs := by
      simp [attachContainer, hex]
    rw [hA]
    exact key _ (attachStep2_route env w ifName wmr [] cidrs (by simp))
  · cases hres : (createAndAttachVeth (localIfName id) (peerIfName id) bridgeName mtu
        env.veth).result with
    | error e =>
      have hA : attachContainer env w id ifName bridgeName mtu wmr cidrs
          = ⟨Except.error e, w, [AEvent.createVeth]⟩ := by
        simp [attachContainer, hex, hres]
      rw [hA]
      have hni : AEvent.addRoute ∉ [AEvent.createVeth] := by simp
      exact ⟨fun _ => hni, fun hmem => absurd hmem hni⟩
    | ok v =>
      have hA : attachContainer env w id ifName bridgeName mtu wmr cidrs
          = attachStep2 env { w with ifaces := w.ifaces ++ [Iface.mk ifName [] false] }
              ifName wmr [AEvent.createVeth] cidrs := by
        simp [attachContainer, hex, hres]
      rw [hA]
      exact key _ (attachStep2_route env _ ifName wmr [AEvent.createVeth] cidrs (by simp))

/-- C5 witness: a concrete successful attach with the multicast route
requested — the route event is present, last, and preceded by link-up
with every ARP event before it. -/
theorem attachContainer_multicast_route_last_witness :
    true = true ∧
    ∃ l, (attachContainer ⟨⟨some LinkKind.bridge, 65535, true, true, true, true, true, true, true⟩,
            fun _ => true, true⟩
          ⟨[Iface.mk "ethwe" [] false], []⟩ "abcdefgh" "ethwe" "weave" 0 true
          [⟨⟨Family.v4, 167772161⟩, 24⟩]).events = l ++ [AEvent.addRoute] ∧
      AEvent.linkUp ∈ l ∧
      (∀ ip, AEvent.arp ip ∈
          (attachContainer ⟨⟨some LinkKind.bridge, 65535, true, true, true, true, true, true, true⟩,
              fun _ => true, true⟩
            ⟨[Iface.mk "ethwe" [] false], []⟩ "abcdefgh" "ethwe" "weave" 0 true
            [⟨⟨Family.v4, 167772161⟩, 24⟩]).events →
        AEvent.arp ip ∈ l) ∧
      AEvent.addRoute ∉ l :=
  (attachContainer_multicast_route_last
    ⟨⟨some LinkKind.bridge, 65535, true, true, true, true, true, true, true⟩,
      fun _ => true, true⟩
    ⟨[Iface.mk "ethwe" [] false], []⟩ "abcdefgh" "ethwe" "weave" 0 true
    [⟨⟨Family.v4, 167772161⟩, 24⟩]).2 (by decide)

/-- C7 witness: a generic link of type "foo" is unsupported — the run
errors, the pair is rolled back, and no attach call was attempted. -/
theorem createAndAttachVeth_unsupported_witness :
    (∃ e, (createAndAttachVeth "vethweplabcde" "vethwgabcde" "weave" 1500
        ⟨some (LinkKind.generic "foo"), 65535, true, true, true, true, true, true, true⟩).result
      = Except.error e) ∧
    (createAndAttachVeth "vethweplabcde" "vethwgabcde" "weave" 1500
        ⟨some (LinkKind.generic "foo"), 65535, true, true, true, true, true, true, true⟩).pairExists
      = false ∧
    VEvent.setMaster ∉ (createAndAttachVeth "vethweplabcde" "vethwgabcde" "weave" 1500
        ⟨some (LinkKind.generic "foo"), 65535, true, true, true, true, true, true, true⟩).events ∧
    VEvent.odpAdd ∉ (createAndAttachVeth "vethweplabcde" "vethwgabcde" "weave" 1500
        ⟨some (LinkKind.generic "foo"), 65535, true, true, true, true, true, true, true⟩).events ∧
    (∀ t, classify (LinkKind.generic t) = ForwardingDeviceKind.unsupported ↔
      t ≠ "openvswitch") ∧
    classify LinkKind.other = ForwardingDeviceKind.unsupported ∧
    (∀ k, classify k = ForwardingDeviceKind.kernelBridge ∨
      classify k = ForwardingDeviceKind.datapathGeneric ∨
      classify k = ForwardingDeviceKind.datapathDevice ∨
      classify k = ForwardingDeviceKind.unsupported) :=
  createAndAttachVeth_unsupported "vethweplabcde" "vethwgabcde" "weave" 1500
    ⟨some (LinkKind.generic "foo"), 65535, true, true, true, true, true, true, true⟩
    (LinkKind.generic "foo") rfl rfl rfl

/-- C4: AttachContainer is idempotent with respect to interface
creation: when an interface named `ifName` already exists in the target
namespace the call performs no veth creation (no creation event), and
after a successful call a second call with identical arguments — under
any environment — again creates nothing and converges to the same
address set.  Desired addresses are IPv4 (the spec's AddressSet). -/
theorem attachContainer_idempotent (env env2 : AttachEnv) (w : World)
    (id ifName bridgeName : String) (mtu : Nat) (wmr : Bool) (cidrs : List IPNet)
    (g : Iface)
    (hg : findIface w ifName = some g)
    (hfam : ∀ c ∈ cidrs, c.ip.fam = Family.v4)
    (h1 : (attachContainer env w id ifName bridgeName mtu wmr cidrs).result
      = Except.ok ()) :
    AEvent.createVeth ∉ (attachContainer env w id ifName bridgeName mtu wmr cidrs).events ∧
    AEvent.createVeth ∉ (attachContainer env2
        (attachContainer env w id ifName bridgeName mtu wmr cidrs).world
        id ifName bridgeName mtu wmr cidrs).events ∧
    Option.map Iface.addrs (findIface (attachContainer env2
        (attachContainer env w id ifName bridgeName mtu wmr cidrs).world
        id ifName bridgeName mtu wmr cidrs).world ifName) =
      Option.map Iface.addrs
        (findIface (attachContainer env w id ifName bridgeName mtu wmr cidrs).world
          ifName) := by
  have hex : interfaceExistsInNamespace w ifName = true := by
    simp [interfaceExistsInNamespace, hg]
  have hA : attachContainer env w id ifName bridgeName mtu wmr cidrs
      = attachStep2 env w ifName wmr [] cidrs := by
    simp [attachContainer, hex]
  rw [hA] at h1 ⊢
  cases hres : (addAddresses env.addOk g.addrs cidrs).result with
  | error e =>
    rw [(attachStep2_err env w ifName wmr [] cidrs g e hg hres).1] at h1
    exact Except.noConfusion h1
  | ok added =>
    cases hup : env.upOk with
    | false =>
      rw [(attachStep2_upfail env w ifName wmr [] cidrs g added hg hres hup).1] at h1
      exact Except.noConfusion h1
    | true =>
      obtain ⟨hres1, hfind1, hev1⟩ :=
        attachStep2_shape env w ifName wmr [] cidrs g added hg hres hup
      obtain ⟨p, hp1, hp2⟩ := addAddresses_state_events env.addOk g.addrs cidrs
      have hnc1 : AEvent.createVeth ∉ (attachStep2 env w ifName wmr [] cidrs).events := by
        rw [hev1, hp2]
        exact no_createVeth_mem p added wmr
      have hcov : ∀ c ∈ cidrs,
          contains (addrListV4 (addAddresses env.addOk g.addrs cidrs).addrs) c = true := by
        intro c hc
        rcases addAddresses_mem_of_ok env.addOk g.addrs cidrs added hres c hc with h | h
        · rw [hp1, addrListV4_append]
          exact contains_append_left _ _ _ h
        · exact contains_of_mem_v4 _ _ h (hfam c hc)
      have hskip : addAddresses env2.addOk (addAddresses env.addOk g.addrs cidrs).addrs cidrs
          = ⟨Except.ok [], (addAddresses env.addOk g.addrs cidrs).addrs, []⟩ :=
        addAddresses_all_contained env2.addOk _ cidrs hcov
      have hex2 : interfaceExistsInNamespace (attachStep2 env w ifName wmr [] cidrs).world
          ifName = true := by
        simp [interfaceExistsInNamespace, hfind1]
      have hA2 : attachContainer env2 (attachStep2 env w ifName wmr [] cidrs).world
            id ifName bridgeName mtu wmr cidrs
          = attachStep2 env2 (attachStep2 env w ifName wmr [] cidrs).world
              ifName wmr [] cidrs := by
        simp [attachContainer, hex2]
      rw [hA2]
      have hskip' : addAddresses env2.addOk
          (Iface.mk g.name (addAddresses env.addOk g.addrs cidrs).addrs true).addrs cidrs
          = ⟨Except.ok [], (addAddresses env.addOk g.addrs cidrs).addrs, []⟩ := hskip
      have hres2 : (addAddresses env2.addOk
          (Iface.mk g.name (addAddresses env.addOk g.addrs cidrs).addrs true).addrs
            cidrs).result = Except.ok [] := by
        rw [hskip']
      have haddr2 : (addAddresses env2.addOk
          (Iface.mk g.name (addAddresses env.addOk g.addrs cidrs).addrs true).addrs
            cidrs).addrs = (addAddresses env.addOk g.addrs cidrs).addrs := by
        rw [hskip']
      have hev2e : (addAddresses env2.addOk
          (Iface.mk g.name (addAddresses env.addOk g.addrs cidrs).addrs true).addrs
            cidrs).events = [] := by
        rw [hskip']
      cases hup2 : env2.upOk with
      | true =>
        obtain ⟨hres2', hfind2, hev2⟩ := attachStep2_shape env2
          (attachStep2 env w ifName wmr [] cidrs).world ifName wmr [] cidrs
          (Iface.mk g.name (addAddresses env.addOk g.addrs cidrs).addrs true) []
          hfind1 hres2 hup2
        refine ⟨hnc1, ?_, ?_⟩
        · rw [hev2, hev2e]
          cases wmr <;> simp
        · rw [hfind2, hfind1]
          simp [haddr2]
      | false =>
        obtain ⟨hres2', hworld2, hev2⟩ := attachStep2_upfail env2
          (attachStep2 env w ifName wmr [] cidrs).world ifName wmr [] cidrs
          (Iface.mk g.name (addAddresses env.addOk g.addrs cidrs).addrs true) []
          hfind1 hres2 hup2
        refine ⟨hnc1, ?_, ?_⟩
        · rw [hev2, hev2e]
          simp
        · rw [hworld2]
          rw [findIface_updIface (attachStep2 env w ifName wmr [] cidrs).world ifName
            (addAddresses env2.addOk
              (Iface.mk g.name (addAddresses env.addOk g.addrs cidrs).addrs true).addrs
                cidrs).addrs
            (Iface.mk g.name (addAddresses env.addOk g.addrs cidrs).addrs true).up
            (Iface.mk g.name (addAddresses env.addOk g.addrs cidrs).addrs true) hfind1]
          rw [hfind1]
          simp [haddr2]

/-- C4 witness: a concrete attach onto an already-existing empty
interface succeeds; the repeated call creates nothing and the address
set is unchanged. -/
theorem attachContainer_idempotent_witness :
    AEvent.createVeth ∉ (attachContainer
      ⟨⟨some LinkKind.bridge, 65535, true, true, true, true, true, true, true⟩,
        fun _ => true, true⟩
      ⟨[Iface.mk "ethwe" [] false], []⟩ "abcdefgh" "ethwe" "weave" 0 false
      [⟨⟨Family.v4, 167772161⟩, 24⟩]).events ∧
    AEvent.createVeth ∉ (attachContainer
      ⟨⟨some LinkKind.bridge, 65535, true, true, true, true, true, true, true⟩,
        fun _ => true, true⟩
      (attachContainer
        ⟨⟨some LinkKind.bridge, 65535, true, true, true, true, true, true, true⟩,
          fun _ => true, true⟩
        ⟨[Iface.mk "ethwe" [] false], []⟩ "abcdefgh" "ethwe" "weave" 0 false
        [⟨⟨Family.v4, 167772161⟩, 24⟩]).world
      "abcdefgh" "ethwe" "weave" 0 false [⟨⟨Family.v4, 167772161⟩, 24⟩]).events ∧
    Option.map Iface.addrs (findIface (attachContainer
      ⟨⟨some LinkKind.bridge, 65535, true, true, true, true, true, true, true⟩,
        fun _ => true, true⟩
      (attachContainer
        ⟨⟨some LinkKind.bridge, 65535, true, true, true, true, true, true, true⟩,
          fun _ => true, true⟩
        ⟨[Iface.mk "ethwe" [] false], []⟩ "abcdefgh" "ethwe" "weave" 0 false
        [⟨⟨Family.v4, 167772161⟩, 24⟩]).world
      "abcdefgh" "ethwe" "weave" 0 false [⟨⟨Family.v4, 167772161⟩, 24⟩]).world "ethwe") =
      Option.map Iface.addrs (findIface (attachContainer
        ⟨⟨some LinkKind.bridge, 65535, true, true, true, true, true, true, true⟩,
          fun _ => true, true⟩
        ⟨[Iface.mk "ethwe" [] false], []⟩ "abcdefgh" "ethwe" "weave" 0 false
        [⟨⟨Family.v4, 167772161⟩, 24⟩]).world "ethwe") :=
  attachContainer_idempotent
    ⟨⟨some LinkKind.bridge, 65535, true, true, true, true, true, true, true⟩,
      fun _ => true, true⟩
    ⟨⟨some LinkKind.bridge, 65535, true, true, true, true, true, true, true⟩,
      fun _ => true, true⟩
    ⟨[Iface.mk "ethwe" [] false], []⟩ "abcdefgh" "ethwe" "weave" 0 false
    [⟨⟨Family.v4, 167772161⟩, 24⟩] (Iface.mk "ethwe" [] false)
    rfl (by decide) rfl

/-- C9: when `AddAddresses` fails while adding one of the absent desired
addresses it returns the error with no added-address list, while the
addresses added earlier in the same call remain configured on the
interface; AttachContainer then propagates the error, sends no
gratuitous announcement and performs no address removal — partial
additions are unreported and not rolled back. -/
theorem addAddresses_failure_partial (env : AttachEnv) (w : World)
    (id ifName bridgeName : String) (mtu : Nat) (wmr : Bool) (cidrs : List IPNet)
    (g : Iface) (e : String)
    (hg : findIface w ifName = some g)
    (he : (addAddresses env.addOk g.addrs cidrs).result = Except.error e) :
    (∃ p, (addAddresses env.addOk g.addrs cidrs).addrs = g.addrs ++ p ∧
      (addAddresses env.addOk g.addrs cidrs).events = List.map AEvent.addrAdd p) ∧
    (attachContainer env w id ifName bridgeName mtu wmr cidrs).result = Except.error e ∧
    (∀ ip, AEvent.arp ip ∉
      (attachContainer env w id ifName bridgeName mtu wmr cidrs).events) ∧
    (∀ a, AEvent.addrDel a ∉
      (attachContainer env w id ifName bridgeName mtu wmr cidrs).events) ∧
    Option.map Iface.addrs
        (findIface (attachContainer env w id ifName bridgeName mtu wmr cidrs).world ifName)
      = some (addAddresses env.addOk g.addrs cidrs).addrs := by
  have hex : interfaceExistsInNamespace w ifName = true := by
    simp [interfaceExistsInNamespace, hg]
  have hA : attachContainer env w id ifName bridgeName mtu wmr cidrs
      = attachStep2 env w ifName wmr [] cidrs := by
    simp [attachContainer, hex]
  obtain ⟨p, hp1, hp2⟩ := addAddresses_state_events env.addOk g.addrs cidrs
  obtain ⟨hres, hworld, hev⟩ := attachStep2_err env w ifName wmr [] cidrs g e hg he
  rw [hA]
  refine ⟨⟨p, hp1, hp2⟩, hres, ?_, ?_, ?_⟩
  · intro ip
    rw [hev, hp2]
    intro h
    simp only [List.nil_append, List.mem_map] at h
    obtain ⟨a, _, ha⟩ := h
    exact AEvent.noConfusion ha
  · intro a
    rw [hev, hp2]
    intro h
    simp only [List.nil_append, List.mem_map] at h
    obtain ⟨x, _, hx⟩ := h
    exact AEvent.noConfusion hx
  · rw [hworld]
    rw [findIface_updIface w ifName (addAddresses env.addOk g.addrs cidrs).addrs g.up g hg]
    simp

/-- C9 witness: an environment that allows /24 adds and rejects /16
adds — the first desired address is added and stays, the second fails;
the attach errors with no ARP and no removal. -/
theorem addAddresses_failure_partial_witness :
    (∃ p, (addAddresses (fun c => c.plen == 24) []
        [⟨⟨Family.v4, 167772161⟩, 24⟩, ⟨⟨Family.v4, 167772162⟩, 16⟩]).addrs = [] ++ p ∧
      (addAddresses (fun c => c.plen == 24) []
        [⟨⟨Family.v4, 167772161⟩, 24⟩, ⟨⟨Family.v4, 167772162⟩, 16⟩]).events
        = List.map AEvent.addrAdd p) ∧
    (attachContainer ⟨⟨some LinkKind.bridge, 65535, true, true, true, true, true, true, true⟩,
        fun c => c.plen == 24, true⟩
      ⟨[Iface.mk "ethwe" [] false], []⟩ "abcdefgh" "ethwe" "weave" 0 false
      [⟨⟨Family.v4, 167772161⟩, 24⟩, ⟨⟨Family.v4, 167772162⟩, 16⟩]).result
      = Except.error msgAddrAddFail ∧
    (∀ ip, AEvent.arp ip ∉
      (attachContainer ⟨⟨some LinkKind.bridge, 65535, true, true, true, true, true, true, true⟩,
          fun c => c.plen == 24, true⟩
        ⟨[Iface.mk "ethwe" [] false], []⟩ "abcdefgh" "ethwe" "weave" 0 false
        [⟨⟨Family.v4, 167772161⟩, 24⟩, ⟨⟨Family.v4, 167772162⟩, 16⟩]).events) ∧
    (∀ a, AEvent.addrDel a ∉
      (attachContainer ⟨⟨some LinkKind.bridge, 65535, true, true, true, true, true, true, true⟩,
          fun c => c.plen == 24, true⟩
        ⟨[Iface.mk "ethwe" [] false], []⟩ "abcdefgh" "ethwe" "weave" 0 false
        [⟨⟨Family.v4, 167772161⟩, 24⟩, ⟨⟨Family.v4, 167772162⟩, 16⟩]).events) ∧
    Option.map Iface.addrs
        (findIface (attachContainer
          ⟨⟨some LinkKind.bridge, 65535, true, true, true, true, true, true, true⟩,
            fun c => c.plen == 24, true⟩
          ⟨[Iface.mk "ethwe" [] false], []⟩ "abcdefgh" "ethwe" "weave" 0 false
          [⟨⟨Family.v4, 167772161⟩, 24⟩, ⟨⟨Family.v4, 167772162⟩, 16⟩]).world "ethwe")
      = some (addAddresses (fun c => c.plen == 24) []
          [⟨⟨Family.v4, 167772161⟩, 24⟩, ⟨⟨Family.v4, 167772162⟩, 16⟩]).addrs :=
  addAddresses_failure_partial
    ⟨⟨some LinkKind.bridge, 65535, true, true, true, true, true, true, true⟩,
      fun c => c.plen == 24, true⟩
    ⟨[Iface.mk "ethwe" [] false], []⟩ "abcdefgh" "ethwe" "weave" 0 false
    [⟨⟨Family.v4, 167772161⟩, 24⟩, ⟨⟨Family.v4, 167772162⟩, 16⟩]
    (Iface.mk "ethwe" [] false) msgAddrAddFail rfl rfl

end WeaveNet
